import Mathlib

/-!
Shallow embedding of the manifest-validation core of `shuttlings-cch24`
(`src/dangerous_open_internet.rs`).

The core is a pure pipeline from a `Content-Type` header and a body string
to an HTTP-like `(status, body)` response.  The repository code calls four
external libraries (the TOML / YAML / JSON parsers, the `toml` serializer
and the `cargo_manifest` conformance checker); those are modelled as
oracle parameters (`TomlLib`, `YamlLib`, `JsonLib`) because their code is
not part of this repository, while every structural decision made by the
repository's own code — dispatch, error mapping, keyword gating, orders
extraction, per-entry conversion, filtering, rendering, and the `unwrap`
calls that turn library failures into panics — is embedded concretely.

Rust `panic!` (from `.unwrap()` on an `Err`) is modelled as a distinct
terminal outcome `PipeResult.panicked` / `RunResult.panicked`, separate
from any well-formed response.
-/

/-- Canonical record: `ValidToy { item: String, quantity: u32 }`.
`quantity` is a `Nat` that the conversion functions always produce
below `2 ^ 32`. -/
structure ValidToy where
  item : String
  quantity : Nat
deriving DecidableEq, Repr

/-- The `quantity as u32` cast in the source: two's-complement truncation
of a 64-bit integer to unsigned 32 bits. -/
def u32ofI64 (q : Int) : Nat :=
  (q % (2 ^ 32 : Int)).toNat

/-- `Display for ValidToy`: `write!(f, "{}: {}", item, quantity)`. -/
def ValidToy.render (t : ValidToy) : String :=
  t.item ++ ": " ++ toString t.quantity

/-- A TOML value tree (`toml::Value`); only the shape the code inspects
is needed.  `int` carries the `i64` payload of `Value::Integer`. -/
inductive TomlValue where
  | str (s : String)
  | int (i : Int)
  | float
  | boolean (b : Bool)
  | datetime
  | array (l : List TomlValue)
  | table (t : List (String × TomlValue))
deriving Repr

/-- `toml::Table`: a map from string keys to values (association list;
TOML tables have unique keys). -/
def TomlTable := List (String × TomlValue)

/-- `Table::get`: first binding of the key, if any. -/
def TomlTable.get (t : TomlTable) (k : String) : Option TomlValue :=
  match t with
  | [] => none
  | (k', v) :: rest => if k' = k then some v else TomlTable.get rest k

/-- `TryFrom<Table> for ValidToy`: `quantity` must be present and an
`Integer` (cast `as u32`), then `item` must be present and a `String`. -/
def ValidToy.tryFromTable (value : TomlTable) : Except String ValidToy :=
  match value.get "quantity" with
  | some (TomlValue.int q) =>
    match value.get "item" with
    | some (TomlValue.str s) => Except.ok ⟨s, u32ofI64 q⟩
    | some _ => Except.error "Invalid item type"
    | none => Except.error "Missing item"
  | some _ => Except.error "Invalid quantity type"
  | none => Except.error "Missing quantity"

/-- A `serde_yaml::Value` / `serde_json::Value` tree; both formats'
conversion code inspects values through the same operations
(`value[key]`, `as_str`, `as_i64`), so one tree type serves both.
`int` carries an unbounded integer; `asI64` applies the 64-bit bound. -/
inductive JVal where
  | null
  | boolean (b : Bool)
  | int (i : Int)
  | float
  | str (s : String)
  | arr (l : List JVal)
  | obj (m : List (String × JVal))
deriving Repr

/-- Key lookup in a mapping's entry list: the value, or `Null` when the
key is absent. -/
def JVal.lookupKey (m : List (String × JVal)) (k : String) : JVal :=
  match m with
  | [] => JVal.null
  | (k', x) :: rest => if k' = k then x else JVal.lookupKey rest k

/-- `value[key]` on a `serde_yaml`/`serde_json` value: the entry of a
mapping, or `Null` when the key is absent or the value is not a mapping. -/
def JVal.index (v : JVal) (k : String) : JVal :=
  match v with
  | JVal.obj m => JVal.lookupKey m k
  | _ => JVal.null

/-- `Value::as_str`. -/
def JVal.asStr : JVal → Option String
  | JVal.str s => some s
  | _ => none

/-- `Value::as_i64`: integers representable in signed 64 bits. -/
def JVal.asI64 : JVal → Option Int
  | JVal.int i => if -(2 ^ 63) ≤ i ∧ i < 2 ^ 63 then some i else none
  | _ => none

/-- Whether a value is a mapping. -/
def JVal.isObj : JVal → Bool
  | JVal.obj _ => true
  | _ => false

/-- `TryFrom<serde_yaml::Value> for ValidToy` and
`TryFrom<serde_json::Value> for ValidToy` (identical code): `item` via
`value["item"].as_str()`, `quantity` via `value["quantity"].as_i64()`,
cast `as u32`. -/
def ValidToy.tryFromJVal (v : JVal) : Except String ValidToy :=
  match (v.index "item").asStr with
  | none => Except.error "Invalid item"
  | some item =>
    match (v.index "quantity").asI64 with
    | none => Except.error "Invalid quantity"
    | some q => Except.ok ⟨item, u32ofI64 q⟩

/-- `ManifestPackageMetadata<T>`. -/
structure ManifestPackageMetadata (T : Type) where
  orders : Option (List T)

/-- `ManifestPackage<T>`. -/
structure ManifestPackage (T : Type) where
  name : String
  keywords : Option (List String)
  metadata : Option (ManifestPackageMetadata T)

/-- `Manifest<T>`. -/
structure Manifest (T : Type) where
  package : ManifestPackage T

/-- The error taxonomy `ManifestParseError`. -/
inductive ManifestParseError where
  | InvalidContentType
  | InvalidManifest
  | MissingMagicKeyword
  | MissingOrders
deriving DecidableEq, Repr

/-- The `thiserror` display strings of each error. -/
def ManifestParseError.message : ManifestParseError → String
  | ManifestParseError.InvalidContentType => ""
  | ManifestParseError.InvalidManifest => "Invalid manifest"
  | ManifestParseError.MissingMagicKeyword => "Magic keyword not provided"
  | ManifestParseError.MissingOrders => ""

/-- `IntoResponse for ManifestParseError`: the status code. -/
def ManifestParseError.status : ManifestParseError → Nat
  | ManifestParseError.InvalidContentType => 415
  | ManifestParseError.InvalidManifest => 400
  | ManifestParseError.MissingMagicKeyword => 400
  | ManifestParseError.MissingOrders => 204

/-- `parse_manifest<T>`: keyword gate, orders extraction, per-entry
conversion with silent filtering, rendering, emptiness check.  The
`TryFrom<T>` bound is passed as the explicit conversion `conv`. -/
def parse_manifest {T : Type} (conv : T → Except String ValidToy)
    (m : Manifest T) : Except ManifestParseError String :=
  match m.package.keywords with
  | none => Except.error ManifestParseError.MissingMagicKeyword
  | some kws =>
    if !(kws.contains "Christmas 2024") then
      Except.error ManifestParseError.MissingMagicKeyword
    else
      match m.package.metadata with
      | none => Except.error ManifestParseError.MissingOrders
      | some metadata =>
        match metadata.orders with
        | none => Except.error ManifestParseError.MissingOrders
        | some orders =>
          let toys := String.intercalate "\n"
            ((orders.filterMap fun o => (conv o).toOption).map ValidToy.render)
          if toys.isEmpty then Except.error ManifestParseError.MissingOrders
          else Except.ok toys

/-- Result of one of the `parse_*` pipeline functions: either the Rust
`Result<String, ManifestParseError>`, or a panic from an `unwrap`. -/
inductive PipeResult where
  | panicked
  | result (r : Except ManifestParseError String)
deriving Repr

/-- Oracle for the external calls made by `parse_toml`:
`cargo_manifest::Manifest::from_str(body).is_ok()` and
`toml::from_str::<Manifest<Table>>(body)`. -/
structure TomlLib where
  cargoCheck : String → Bool
  fromStr : String → Except String (Manifest TomlTable)

/-- `parse_toml`: conformance-check the raw body, then bind the schema —
the bind result is `.unwrap()`ed, so a bind failure panics. -/
def parse_toml (lib : TomlLib) (body : String) : PipeResult :=
  if !(lib.cargoCheck body) then
    PipeResult.result (Except.error ManifestParseError.InvalidManifest)
  else
    match lib.fromStr body with
    | Except.error _ => PipeResult.panicked
    | Except.ok m => PipeResult.result (parse_manifest ValidToy.tryFromTable m)

/-- Oracle for the external calls made by `parse_yaml`:
`serde_yaml::from_str::<Value>`, `toml::to_string`,
`serde_yaml::from_value::<Manifest<Value>>`, and
`cargo_manifest::Manifest::from_str(..).is_ok()`. -/
structure YamlLib where
  fromStr : String → Except String JVal
  tomlToString : JVal → Except String String
  fromValue : JVal → Except String (Manifest JVal)
  cargoCheck : String → Bool

/-- `parse_yaml`: the raw parse and the schema bind are `.unwrap()`ed
(failures panic); the `toml::to_string` failure and the conformance
failure are mapped to `InvalidManifest`. -/
def parse_yaml (lib : YamlLib) (body : String) : PipeResult :=
  match lib.fromStr body with
  | Except.error _ => PipeResult.panicked
  | Except.ok raw =>
    match lib.tomlToString raw with
    | Except.error _ =>
      PipeResult.result (Except.error ManifestParseError.InvalidManifest)
    | Except.ok tomlString =>
      match lib.fromValue raw with
      | Except.error _ => PipeResult.panicked
      | Except.ok m =>
        if !(lib.cargoCheck tomlString) then
          PipeResult.result (Except.error ManifestParseError.InvalidManifest)
        else PipeResult.result (parse_manifest ValidToy.tryFromJVal m)

/-- Oracle for the external calls made by `parse_json` (same shape as
the YAML ones, over `serde_json`). -/
structure JsonLib where
  fromStr : String → Except String JVal
  tomlToString : JVal → Except String String
  fromValue : JVal → Except String (Manifest JVal)
  cargoCheck : String → Bool

/-- `parse_json`: the raw parse failure is mapped to `InvalidManifest`;
the schema bind is `.unwrap()`ed (failure panics). -/
def parse_json (lib : JsonLib) (body : String) : PipeResult :=
  match lib.fromStr body with
  | Except.error _ =>
    PipeResult.result (Except.error ManifestParseError.InvalidManifest)
  | Except.ok raw =>
    match lib.tomlToString raw with
    | Except.error _ =>
      PipeResult.result (Except.error ManifestParseError.InvalidManifest)
    | Except.ok tomlString =>
      match lib.fromValue raw with
      | Except.error _ => PipeResult.panicked
      | Except.ok m =>
        if !(lib.cargoCheck tomlString) then
          PipeResult.result (Except.error ManifestParseError.InvalidManifest)
        else PipeResult.result (parse_manifest ValidToy.tryFromJVal m)

/-- The `Content-Type` header as the handler sees it: absent, present
but not readable as text (`to_str` fails), or a text value. -/
inductive HeaderVal where
  | absent
  | invalid
  | value (s : String)
deriving DecidableEq, Repr

/-- Outcome of one request: a `(status, body)` response or a panic. -/
inductive RunResult where
  | panicked
  | response (status : Nat) (body : String)
deriving DecidableEq, Repr

/-- `.into_response()` on `Result<String, ManifestParseError>`:
`Ok` is 200 with the text, `Err` uses the error's status and message. -/
def PipeResult.toRun : PipeResult → RunResult
  | PipeResult.panicked => RunResult.panicked
  | PipeResult.result (Except.ok s) => RunResult.response 200 s
  | PipeResult.result (Except.error e) => RunResult.response e.status e.message

/-- The `manifest` handler: header dispatch, then the format pipelines,
then response mapping. -/
def manifestHandler (t : TomlLib) (y : YamlLib) (j : JsonLib)
    (header : HeaderVal) (body : String) : RunResult :=
  match header with
  | HeaderVal.absent => RunResult.response 400 "Missing Content Type"
  | HeaderVal.invalid => RunResult.response 400 "Missing Content Type"
  | HeaderVal.value ct =>
    (if ct = "application/toml" then parse_toml t body
     else if ct = "application/yaml" then parse_yaml y body
     else if ct = "application/json" then parse_json j body
     else PipeResult.result
       (Except.error ManifestParseError.InvalidContentType)).toRun

/-- A batch of independent requests handled in sequence; the core keeps
no cross-request state, so this is a `map` of the handler. -/
def processRequests (t : TomlLib) (y : YamlLib) (j : JsonLib)
    (reqs : List (HeaderVal × String)) : List RunResult :=
  reqs.map fun r => manifestHandler t y j r.1 r.2

/-! ### Logical documents for cross-format comparison

`LogicalDoc` follows the spec's words for the cross-format equivalence
property: "any logical manifest document expressible identically in all
three formats (same fields, same values)".  An entry is either a proper
order (`item` string, `quantity` 64-bit integer) or a table of string
fields lacking a usable order shape; both are expressible verbatim in
TOML, YAML and JSON.  A `LogicalDoc` is rendered into each format's
manifest representation and the pipeline results are compared. -/

/-- One entry of the `orders` array of a logical document. -/
inductive LogicalEntry where
  | toy (item : String) (quantity : Int)
  | junk (fields : List (String × String))

/-- The quantity of a `toy` entry fits in a signed 64-bit integer. -/
def LogicalEntry.inI64 : LogicalEntry → Prop
  | LogicalEntry.toy _ q => -(2 ^ 63) ≤ q ∧ q < 2 ^ 63
  | LogicalEntry.junk _ => True

/-- The entry as a TOML table. -/
def LogicalEntry.toTable : LogicalEntry → TomlTable
  | LogicalEntry.toy item q =>
    [("item", TomlValue.str item), ("quantity", TomlValue.int q)]
  | LogicalEntry.junk fields => fields.map fun p => (p.1, TomlValue.str p.2)

/-- The entry as a YAML/JSON mapping. -/
def LogicalEntry.toJ : LogicalEntry → JVal
  | LogicalEntry.toy item q =>
    JVal.obj [("item", JVal.str item), ("quantity", JVal.int q)]
  | LogicalEntry.junk fields => JVal.obj (fields.map fun p => (p.1, JVal.str p.2))

/-- A format-independent manifest document. -/
structure LogicalDoc where
  name : String
  keywords : Option (List String)
  metadata : Option (Option (List LogicalEntry))

/-- The document bound against the TOML manifest schema. -/
def LogicalDoc.toTomlManifest (d : LogicalDoc) : Manifest TomlTable :=
  ⟨⟨d.name, d.keywords,
    d.metadata.map fun oos => ⟨oos.map fun os => os.map LogicalEntry.toTable⟩⟩⟩

/-- The document bound against the YAML/JSON manifest schema. -/
def LogicalDoc.toJManifest (d : LogicalDoc) : Manifest JVal :=
  ⟨⟨d.name, d.keywords,
    d.metadata.map fun oos => ⟨oos.map fun os => os.map LogicalEntry.toJ⟩⟩⟩

/-! ### Concrete library instantiations used by the witnesses -/

/-- A TOML library whose schema bind always fails. -/
def stubTomlLib : TomlLib :=
  ⟨fun _ => true, fun _ => Except.error "binding failed"⟩

/-- A YAML library whose raw parse always fails, as `serde_yaml` does on
syntactically invalid input such as `"["`. -/
def errYamlLib : YamlLib :=
  ⟨fun _ => Except.error "syntax error", fun _ => Except.ok "",
   fun _ => Except.error "binding failed", fun _ => true⟩

/-- A JSON library whose raw parse always fails. -/
def stubJsonLib : JsonLib :=
  ⟨fun _ => Except.error "syntax error", fun _ => Except.ok "",
   fun _ => Except.error "binding failed", fun _ => true⟩

/-- A convertible order entry. -/
def goodDoll : JVal := JVal.obj [("item", JVal.str "Doll"), ("quantity", JVal.int 3)]

/-- Another convertible order entry. -/
def goodTrain : JVal := JVal.obj [("item", JVal.str "Train"), ("quantity", JVal.int 7)]

/-- A concrete logical document with one convertible and one
non-convertible order entry. -/
def witDoc : LogicalDoc :=
  ⟨"gift-wrapper", some ["Christmas 2024"],
   some (some [LogicalEntry.toy "Doll" 3, LogicalEntry.junk [("note", "fragile")]])⟩

/-- A TOML library that parses its input to `witDoc`'s manifest. -/
def witTomlLib : TomlLib :=
  ⟨fun _ => true, fun _ => Except.ok witDoc.toTomlManifest⟩

/-- A YAML library that parses and binds its input to `witDoc`'s manifest. -/
def witYamlLib : YamlLib :=
  ⟨fun _ => Except.ok JVal.null, fun _ => Except.ok "serialized",
   fun _ => Except.ok witDoc.toJManifest, fun _ => true⟩

/-- A JSON library that parses and binds its input to `witDoc`'s manifest. -/
def witJsonLib : JsonLib :=
  ⟨fun _ => Except.ok JVal.null, fun _ => Except.ok "serialized",
   fun _ => Except.ok witDoc.toJManifest, fun _ => true⟩

/-! ### Helper lemmas -/

/-- The accumulator of `String.intercalate.go` is a prefix of its result. -/
theorem intercalate_go_data (sep : String) :
    ∀ (as : List String) (acc : String),
      ∃ r : List Char, (String.intercalate.go acc sep as).data = acc.data ++ r := by
  intro as
  induction as with
  | nil => intro acc; exact ⟨[], by simp [String.intercalate.go]⟩
  | cons a as ih =>
    intro acc
    obtain ⟨r, hr⟩ := ih (acc ++ sep ++ a)
    refine ⟨sep.data ++ a.data ++ r, ?_⟩
    have hstep : String.intercalate.go acc sep (a :: as)
        = String.intercalate.go (acc ++ sep ++ a) sep as := rfl
    rw [hstep, hr]
    simp [String.congr_append, List.append_assoc]

/-- Joining a list whose head is a nonempty string yields a nonempty
string. -/
theorem intercalate_cons_ne_empty (sep a : String) (as : List String)
    (h : a.data ≠ []) : (String.intercalate sep (a :: as)).isEmpty = false := by
  obtain ⟨r, hr⟩ := intercalate_go_data sep as a
  rw [Bool.eq_false_iff]
  intro hemp
  rw [String.isEmpty_iff] at hemp
  have hd : (String.intercalate sep (a :: as)).data = a.data ++ r := hr
  rw [hemp] at hd
  have hnil : a.data ++ r = [] := hd.symm
  exact h (List.append_eq_nil.mp hnil).1

/-- A rendered toy line is never the empty string (it contains `": "`). -/
theorem render_data_ne_nil (t : ValidToy) : (ValidToy.render t).data ≠ [] := by
  intro h
  have hd : (ValidToy.render t).data
      = (t.item.data ++ ": ".data) ++ (toString t.quantity).data := by
    simp [ValidToy.render, String.congr_append]
  rw [hd] at h
  rcases List.append_eq_nil.mp h with ⟨h1, _⟩
  rcases List.append_eq_nil.mp h1 with ⟨_, h2⟩
  exact absurd h2 (by decide)

/-- The YAML/JSON conversion on a well-shaped order mapping. -/
theorem tryFromJVal_toyObj (item : String) (q : Int)
    (hlo : -(2 ^ 63) ≤ q) (hhi : q < 2 ^ 63) :
    ValidToy.tryFromJVal (JVal.obj [("item", JVal.str item), ("quantity", JVal.int q)])
      = Except.ok ⟨item, u32ofI64 q⟩ := by
  have h1 : ((JVal.obj [("item", JVal.str item),
      ("quantity", JVal.int q)]).index "item").asStr = some item := rfl
  have h2 : ((JVal.obj [("item", JVal.str item),
      ("quantity", JVal.int q)]).index "quantity").asI64
      = if -(2 ^ 63) ≤ q ∧ q < 2 ^ 63 then some q else none := rfl
  unfold ValidToy.tryFromJVal
  simp only [h1, h2, if_pos (show -(2 ^ 63) ≤ q ∧ q < 2 ^ 63 from ⟨hlo, hhi⟩)]

/-- Lookup in a table of string fields yields nothing or a string. -/
theorem get_map_str (fields : List (String × String)) (k : String) :
    TomlTable.get (fields.map fun p => (p.1, TomlValue.str p.2)) k = none ∨
    ∃ s, TomlTable.get (fields.map fun p => (p.1, TomlValue.str p.2)) k
      = some (TomlValue.str s) := by
  induction fields with
  | nil => exact Or.inl rfl
  | cons p rest ih =>
    by_cases hk : p.1 = k
    · exact Or.inr ⟨p.2, by simp [TomlTable.get, hk]⟩
    · simpa [TomlTable.get, hk] using ih

/-- Lookup in a mapping of string fields yields `Null` or a string. -/
theorem lookup_map_str (fields : List (String × String)) (k : String) :
    JVal.lookupKey (fields.map fun p => (p.1, JVal.str p.2)) k = JVal.null ∨
    ∃ s, JVal.lookupKey (fields.map fun p => (p.1, JVal.str p.2)) k = JVal.str s := by
  induction fields with
  | nil => exact Or.inl rfl
  | cons p rest ih =>
    by_cases hk : p.1 = k
    · exact Or.inr ⟨p.2, by simp [JVal.lookupKey, hk]⟩
    · simpa [JVal.lookupKey, hk] using ih

/-- A `junk` entry never converts on the TOML side. -/
theorem tryFromTable_junk (fields : List (String × String)) :
    ∃ msg, ValidToy.tryFromTable (LogicalEntry.toTable (LogicalEntry.junk fields))
      = Except.error msg := by
  have ht : LogicalEntry.toTable (LogicalEntry.junk fields)
      = fields.map fun p => (p.1, TomlValue.str p.2) := rfl
  rcases get_map_str fields "quantity" with h | ⟨s, h⟩
  · exact ⟨"Missing quantity", by unfold ValidToy.tryFromTable; rw [ht, h]⟩
  · exact ⟨"Invalid quantity type", by unfold ValidToy.tryFromTable; rw [ht, h]⟩

/-- A `junk` entry never converts on the YAML/JSON side. -/
theorem tryFromJVal_junk (fields : List (String × String)) :
    ∃ msg, ValidToy.tryFromJVal (LogicalEntry.toJ (LogicalEntry.junk fields))
      = Except.error msg := by
  have hidx : ∀ k, (LogicalEntry.toJ (LogicalEntry.junk fields)).index k
      = JVal.lookupKey (fields.map fun p => (p.1, JVal.str p.2)) k := fun _ => rfl
  have hq : ((LogicalEntry.toJ (LogicalEntry.junk fields)).index "quantity").asI64
      = none := by
    rw [hidx]
    rcases lookup_map_str fields "quantity" with h | ⟨s, h⟩ <;> rw [h] <;> rfl
  rcases lookup_map_str fields "item" with h | ⟨s, h⟩
  · refine ⟨"Invalid item", ?_⟩
    unfold ValidToy.tryFromJVal
    rw [hidx, h]
    rfl
  · refine ⟨"Invalid quantity", ?_⟩
    unfold ValidToy.tryFromJVal
    rw [hidx, h]
    simp only [JVal.asStr, hq]

/-- The TOML and the YAML/JSON conversion agree on every logical entry. -/
theorem entry_conversion_agrees (e : LogicalEntry) (he : e.inI64) :
    (ValidToy.tryFromTable e.toTable).toOption
      = (ValidToy.tryFromJVal e.toJ).toOption := by
  cases e with
  | toy item q =>
    obtain ⟨hlo, hhi⟩ := he
    have h1 : ValidToy.tryFromTable (LogicalEntry.toTable (LogicalEntry.toy item q))
        = Except.ok ⟨item, u32ofI64 q⟩ := rfl
    rw [h1, show LogicalEntry.toJ (LogicalEntry.toy item q)
        = JVal.obj [("item", JVal.str item), ("quantity", JVal.int q)] from rfl,
      tryFromJVal_toyObj item q hlo hhi]
  | junk fields =>
    obtain ⟨m1, h1⟩ := tryFromTable_junk fields
    obtain ⟨m2, h2⟩ := tryFromJVal_junk fields
    rw [h1, h2]
    rfl

/-- The surviving toys of a logical orders list agree across formats. -/
theorem logical_orders_filterMap_eq (os : List LogicalEntry)
    (h : ∀ e ∈ os, e.inI64) :
    (os.map LogicalEntry.toTable).filterMap
        (fun o => (ValidToy.tryFromTable o).toOption)
      = (os.map LogicalEntry.toJ).filterMap
        (fun o => (ValidToy.tryFromJVal o).toOption) := by
  induction os with
  | nil => rfl
  | cons e rest ih =>
    simp only [List.map_cons, List.filterMap_cons]
    rw [entry_conversion_agrees e (h e (List.mem_cons_self _ _))]
    have ih2 := ih fun e' he' => h e' (List.mem_cons_of_mem _ he')
    cases (ValidToy.tryFromJVal e.toJ).toOption with
    | none => exact ih2
    | some t => rw [ih2]

/-- `parse_manifest` treats a logical document identically whether it was
bound through the TOML schema or the YAML/JSON schema. -/
theorem logical_parse_manifest_eq (d : LogicalDoc)
    (h : ∀ os, d.metadata = some (some os) → ∀ e ∈ os, e.inI64) :
    parse_manifest ValidToy.tryFromTable d.toTomlManifest
      = parse_manifest ValidToy.tryFromJVal d.toJManifest := by
  obtain ⟨name, ko, md⟩ := d
  cases ko with
  | none => rfl
  | some kws =>
    cases md with
    | none => rfl
    | some oos =>
      cases oos with
      | none => rfl
      | some os =>
        have hfm := logical_orders_filterMap_eq os (h os rfl)
        unfold parse_manifest LogicalDoc.toTomlManifest LogicalDoc.toJManifest
        simp only [Option.map_some']
        rw [hfm]

/-! ### Claim theorems -/

/-- Claim C1 (refuted; the code panics): the spec says the pipeline is
total — every failure becomes a well-formed response — but `parse_yaml`
calls `.unwrap()` on the result of `serde_yaml::from_str::<Value>`, so
whenever the YAML parse of the body fails the handler panics instead of
producing any `(status, body)` response. -/
theorem yaml_parse_error_escalates_to_panic (t : TomlLib) (y : YamlLib) (j : JsonLib)
    (body e : String) (h : y.fromStr body = Except.error e) :
    manifestHandler t y j (HeaderVal.value "application/yaml") body
      = RunResult.panicked ∧
    ∀ status respBody, manifestHandler t y j (HeaderVal.value "application/yaml") body
      ≠ RunResult.response status respBody := by
  have hrun : manifestHandler t y j (HeaderVal.value "application/yaml") body
      = RunResult.panicked := by
    show (if "application/yaml" = "application/toml" then parse_toml t body
        else if "application/yaml" = "application/yaml" then parse_yaml y body
        else if "application/yaml" = "application/json" then parse_json j body
        else PipeResult.result (Except.error ManifestParseError.InvalidContentType)).toRun
      = RunResult.panicked
    rw [if_neg (by decide), if_pos rfl]
    unfold parse_yaml
    rw [h]
    rfl
  refine ⟨hrun, ?_⟩
  intro status respBody
  rw [hrun]
  simp

/-- Witness for C1: a concrete YAML library that rejects the body `"["`
(as `serde_yaml` does) makes the handler panic. -/
theorem yaml_parse_error_escalates_to_panic_witness :
    manifestHandler stubTomlLib errYamlLib stubJsonLib
      (HeaderVal.value "application/yaml") "[" = RunResult.panicked ∧
    ∀ status respBody, manifestHandler stubTomlLib errYamlLib stubJsonLib
      (HeaderVal.value "application/yaml") "[" ≠ RunResult.response status respBody :=
  yaml_parse_error_escalates_to_panic stubTomlLib errYamlLib stubJsonLib
    "[" "syntax error" rfl

/-- Claim C2 (refuted; the code panics): the spec says a syntactically
invalid YAML body yields status 400 with body `"Invalid manifest"`, but
`parse_yaml` panics on the unwrapped parse error and never reaches the
`InvalidManifest` mapping. -/
theorem yaml_syntax_error_panics_not_invalid_manifest (y : YamlLib) (body e : String)
    (h : y.fromStr body = Except.error e) :
    parse_yaml y body = PipeResult.panicked ∧
    (parse_yaml y body).toRun ≠ RunResult.response 400 "Invalid manifest" := by
  have hp : parse_yaml y body = PipeResult.panicked := by
    unfold parse_yaml
    rw [h]
  refine ⟨hp, ?_⟩
  rw [hp]
  simp [PipeResult.toRun]

/-- Witness for C2: on the invalid YAML body `"{"` the pipeline panics
and does not produce the documented 400 response. -/
theorem yaml_syntax_error_panics_not_invalid_manifest_witness :
    parse_yaml errYamlLib "\x7b" = PipeResult.panicked ∧
    (parse_yaml errYamlLib "\x7b").toRun ≠ RunResult.response 400 "Invalid manifest" :=
  yaml_syntax_error_panics_not_invalid_manifest errYamlLib "\x7b" "syntax error" rfl

/-- Claim C3 (confirmed): whenever the keyword list is absent or does not
contain the exact string `"Christmas 2024"`, `parse_manifest` fails with
`MissingMagicKeyword` — status 400, body `"Magic keyword not provided"` —
for every manifest, i.e. regardless of `metadata` and `orders`, and
before either is inspected. -/
theorem magic_keyword_gate {T : Type} (conv : T → Except String ValidToy)
    (m : Manifest T)
    (h : ∀ kws, m.package.keywords = some kws → kws.contains "Christmas 2024" = false) :
    parse_manifest conv m = Except.error ManifestParseError.MissingMagicKeyword ∧
    (PipeResult.result (parse_manifest conv m)).toRun
      = RunResult.response 400 "Magic keyword not provided" := by
  have hmain : parse_manifest conv m
      = Except.error ManifestParseError.MissingMagicKeyword := by
    unfold parse_manifest
    cases hk : m.package.keywords with
    | none => rfl
    | some kws =>
      simp only [hk]
      rw [h kws hk]
      rfl
  exact ⟨hmain, by rw [hmain]; rfl⟩

/-- Witness for C3: a manifest with keywords `["Christmas 2023"]` is
rejected with the magic-keyword error. -/
theorem magic_keyword_gate_witness :
    parse_manifest ValidToy.tryFromJVal
        ⟨⟨"w", some ["Christmas 2023"], some ⟨some [JVal.null]⟩⟩⟩
      = Except.error ManifestParseError.MissingMagicKeyword ∧
    (PipeResult.result (parse_manifest ValidToy.tryFromJVal
        ⟨⟨"w", some ["Christmas 2023"], some ⟨some [JVal.null]⟩⟩⟩)).toRun
      = RunResult.response 400 "Magic keyword not provided" :=
  magic_keyword_gate ValidToy.tryFromJVal
    ⟨⟨"w", some ["Christmas 2023"], some ⟨some [JVal.null]⟩⟩⟩
    (by intro kws h; cases h; decide)

/-- Claim C4 (confirmed): with the magic keyword present and at least one
convertible entry among the orders, the result is status 200 and the body
is exactly the surviving entries rendered `"item: quantity"`, joined by
single newlines in their original relative order; removing any
non-convertible entry leaves the result unchanged, so invalid entries are
silently dropped without aborting the iteration. -/
theorem partial_failure_filter {T : Type} (conv : T → Except String ValidToy)
    (name : String) (kws : List String) (orders : List T)
    (hk : kws.contains "Christmas 2024" = true)
    (t : ValidToy) (ts : List ValidToy)
    (hf : orders.filterMap (fun o => (conv o).toOption) = t :: ts) :
    parse_manifest conv ⟨⟨name, some kws, some ⟨some orders⟩⟩⟩
      = Except.ok (String.intercalate "\n" ((t :: ts).map ValidToy.render)) ∧
    (PipeResult.result (parse_manifest conv ⟨⟨name, some kws, some ⟨some orders⟩⟩⟩)).toRun
      = RunResult.response 200 (String.intercalate "\n" ((t :: ts).map ValidToy.render)) ∧
    (∀ (l1 l2 : List T) (b : T), orders = l1 ++ b :: l2 → (conv b).toOption = none →
      parse_manifest conv ⟨⟨name, some kws, some ⟨some (l1 ++ l2)⟩⟩⟩
        = parse_manifest conv ⟨⟨name, some kws, some ⟨some orders⟩⟩⟩) := by
  have hmain : parse_manifest conv ⟨⟨name, some kws, some ⟨some orders⟩⟩⟩
      = Except.ok (String.intercalate "\n" ((t :: ts).map ValidToy.render)) := by
    unfold parse_manifest
    simp only [hk, hf, List.map_cons]
    rw [intercalate_cons_ne_empty "\n" (t.render) (ts.map ValidToy.render)
      (render_data_ne_nil t)]
    rfl
  refine ⟨hmain, by rw [hmain]; rfl, ?_⟩
  intro l1 l2 b hsplit hb
  have hfm : (l1 ++ l2).filterMap (fun o => (conv o).toOption)
      = orders.filterMap (fun o => (conv o).toOption) := by
    rw [hsplit]
    simp [List.filterMap_append, List.filterMap_cons, hb]
  unfold parse_manifest
  simp only [hk, hfm]

/-- Witness for C4: orders `[Doll, "bad", Train]` yield 200 with body
`"Doll: 3\nTrain: 7"`, the invalid middle entry silently dropped. -/
theorem partial_failure_filter_witness :
    parse_manifest ValidToy.tryFromJVal
        ⟨⟨"n", some ["Christmas 2024"], some ⟨some [goodDoll, JVal.str "bad", goodTrain]⟩⟩⟩
      = Except.ok (String.intercalate "\n"
          (([⟨"Doll", 3⟩, ⟨"Train", 7⟩] : List ValidToy).map ValidToy.render)) ∧
    (PipeResult.result (parse_manifest ValidToy.tryFromJVal
        ⟨⟨"n", some ["Christmas 2024"], some ⟨some [goodDoll, JVal.str "bad", goodTrain]⟩⟩⟩)).toRun
      = RunResult.response 200 (String.intercalate "\n"
          (([⟨"Doll", 3⟩, ⟨"Train", 7⟩] : List ValidToy).map ValidToy.render)) ∧
    (∀ (l1 l2 : List JVal) (b : JVal),
      [goodDoll, JVal.str "bad", goodTrain] = l1 ++ b :: l2 →
      (ValidToy.tryFromJVal b).toOption = none →
      parse_manifest ValidToy.tryFromJVal ⟨⟨"n", some ["Christmas 2024"], some ⟨some (l1 ++ l2)⟩⟩⟩
        = parse_manifest ValidToy.tryFromJVal
            ⟨⟨"n", some ["Christmas 2024"], some ⟨some [goodDoll, JVal.str "bad", goodTrain]⟩⟩⟩) :=
  partial_failure_filter ValidToy.tryFromJVal "n" ["Christmas 2024"]
    [goodDoll, JVal.str "bad", goodTrain] (by decide) ⟨"Doll", 3⟩ [⟨"Train", 7⟩] rfl

/-- Claim C5 (confirmed): past the magic-keyword gate, a missing
`metadata`, a missing `metadata.orders`, an empty orders sequence, and an
orders sequence in which every entry fails conversion all produce the
same `MissingOrders` outcome, mapped to status 204 with an empty body. -/
theorem emptiness_collapse {T : Type} (conv : T → Except String ValidToy)
    (name : String) (kws : List String)
    (hk : kws.contains "Christmas 2024" = true) :
    parse_manifest conv ⟨⟨name, some kws, none⟩⟩
      = Except.error ManifestParseError.MissingOrders ∧
    parse_manifest conv ⟨⟨name, some kws, some ⟨none⟩⟩⟩
      = Except.error ManifestParseError.MissingOrders ∧
    parse_manifest conv ⟨⟨name, some kws, some ⟨some ([] : List T)⟩⟩⟩
      = Except.error ManifestParseError.MissingOrders ∧
    (∀ orders : List T, orders.filterMap (fun o => (conv o).toOption) = [] →
      parse_manifest conv ⟨⟨name, some kws, some ⟨some orders⟩⟩⟩
        = Except.error ManifestParseError.MissingOrders) ∧
    (PipeResult.result (Except.error ManifestParseError.MissingOrders)).toRun
      = RunResult.response 204 "" := by
  refine ⟨?_, ?_, ?_, ?_, rfl⟩
  · unfold parse_manifest; simp only [hk]; rfl
  · unfold parse_manifest; simp only [hk]; rfl
  · unfold parse_manifest; simp only [hk]; rfl
  · intro orders hfm
    unfold parse_manifest
    simp only [hk, hfm]
    rfl

/-- Witness for C5 at concrete keywords containing the magic keyword. -/
theorem emptiness_collapse_witness :
    parse_manifest ValidToy.tryFromJVal ⟨⟨"e", some ["Christmas 2024"], none⟩⟩
      = Except.error ManifestParseError.MissingOrders ∧
    parse_manifest ValidToy.tryFromJVal ⟨⟨"e", some ["Christmas 2024"], some ⟨none⟩⟩⟩
      = Except.error ManifestParseError.MissingOrders ∧
    parse_manifest ValidToy.tryFromJVal ⟨⟨"e", some ["Christmas 2024"], some ⟨some ([] : List JVal)⟩⟩⟩
      = Except.error ManifestParseError.MissingOrders ∧
    (∀ orders : List JVal, orders.filterMap (fun o => (ValidToy.tryFromJVal o).toOption) = [] →
      parse_manifest ValidToy.tryFromJVal ⟨⟨"e", some ["Christmas 2024"], some ⟨some orders⟩⟩⟩
        = Except.error ManifestParseError.MissingOrders) ∧
    (PipeResult.result (Except.error ManifestParseError.MissingOrders)).toRun
      = RunResult.response 204 "" :=
  emptiness_collapse ValidToy.tryFromJVal "e" ["Christmas 2024"] (by decide)

/-- Claim C6 (confirmed): an order entry whose `item` is a string and
whose `quantity` is a 64-bit integer `q` converts successfully in the
TOML and in the YAML/JSON rule alike, and the resulting quantity is the
unique value below `2 ^ 32` congruent to `q` modulo `2 ^ 32`
(two's-complement truncation — wrapped, never clamped, never rejected). -/
theorem quantity_truncated_mod (item : String) (q : Int)
    (hlo : -(2 ^ 63) ≤ q) (hhi : q < 2 ^ 63) :
    ∃ t : ValidToy,
      ValidToy.tryFromTable
          [("item", TomlValue.str item), ("quantity", TomlValue.int q)] = Except.ok t ∧
      ValidToy.tryFromJVal
          (JVal.obj [("item", JVal.str item), ("quantity", JVal.int q)]) = Except.ok t ∧
      t.item = item ∧ t.quantity < 2 ^ 32 ∧ (2 ^ 32 : Int) ∣ q - (t.quantity : Int) := by
  refine ⟨⟨item, u32ofI64 q⟩, ?_, ?_, rfl, ?_, ?_⟩
  · rfl
  · exact tryFromJVal_toyObj item q hlo hhi
  · show u32ofI64 q < 2 ^ 32
    unfold u32ofI64
    omega
  · show (2 ^ 32 : Int) ∣ q - ((u32ofI64 q : Nat) : Int)
    unfold u32ofI64
    omega

/-- Witness for C6: the negative quantity `-5` wraps to `2 ^ 32 - 5`
rather than being clamped or rejected. -/
theorem quantity_truncated_mod_witness :
    ∃ t : ValidToy,
      ValidToy.tryFromTable
          [("item", TomlValue.str "Gift"), ("quantity", TomlValue.int (-5))] = Except.ok t ∧
      ValidToy.tryFromJVal
          (JVal.obj [("item", JVal.str "Gift"), ("quantity", JVal.int (-5))]) = Except.ok t ∧
      t.item = "Gift" ∧ t.quantity < 2 ^ 32 ∧ (2 ^ 32 : Int) ∣ (-5 : Int) - (t.quantity : Int) :=
  quantity_truncated_mod "Gift" (-5) (by decide) (by decide)

/-- Claim C7 (confirmed): an absent or text-unreadable `Content-Type`
header yields 400 `"Missing Content Type"`, and a present header that is
none of the three registered media types yields 415 with an empty body;
in all these cases the result is the same for every body and every
library behavior, so the body is never parsed. -/
theorem content_type_dispatch (t : TomlLib) (y : YamlLib) (j : JsonLib)
    (body : String) (ct : String)
    (h1 : ct ≠ "application/toml") (h2 : ct ≠ "application/yaml")
    (h3 : ct ≠ "application/json") :
    manifestHandler t y j HeaderVal.absent body
      = RunResult.response 400 "Missing Content Type" ∧
    manifestHandler t y j HeaderVal.invalid body
      = RunResult.response 400 "Missing Content Type" ∧
    manifestHandler t y j (HeaderVal.value ct) body = RunResult.response 415 "" := by
  refine ⟨rfl, rfl, ?_⟩
  show (if ct = "application/toml" then parse_toml t body
      else if ct = "application/yaml" then parse_yaml y body
      else if ct = "application/json" then parse_json j body
      else PipeResult.result (Except.error ManifestParseError.InvalidContentType)).toRun
    = RunResult.response 415 ""
  rw [if_neg h1, if_neg h2, if_neg h3]
  rfl

/-- Witness for C7 at the unregistered media type `application/xml`. -/
theorem content_type_dispatch_witness :
    manifestHandler stubTomlLib errYamlLib stubJsonLib HeaderVal.absent "body"
      = RunResult.response 400 "Missing Content Type" ∧
    manifestHandler stubTomlLib errYamlLib stubJsonLib HeaderVal.invalid "body"
      = RunResult.response 400 "Missing Content Type" ∧
    manifestHandler stubTomlLib errYamlLib stubJsonLib
      (HeaderVal.value "application/xml") "body" = RunResult.response 415 "" :=
  content_type_dispatch stubTomlLib errYamlLib stubJsonLib "body" "application/xml"
    (by decide) (by decide) (by decide)

/-- Claim C8 (confirmed): a logical manifest document expressible
identically in all three formats — its three renderings parse and bind to
the corresponding per-format manifests and the conformance checker
decides alike on the original TOML body and on the re-serializations —
produces the same outcome under all three content types, and in
particular byte-identical success bodies. -/
theorem cross_format_equivalence
    (t : TomlLib) (y : YamlLib) (j : JsonLib)
    (bodyT bodyY bodyJ : String) (d : LogicalDoc)
    (hrange : ∀ os, d.metadata = some (some os) → ∀ e ∈ os, LogicalEntry.inI64 e)
    (rawY rawJ : JVal) (sY sJ : String)
    (htP : t.fromStr bodyT = Except.ok d.toTomlManifest)
    (hyP : y.fromStr bodyY = Except.ok rawY)
    (hyS : y.tomlToString rawY = Except.ok sY)
    (hyB : y.fromValue rawY = Except.ok d.toJManifest)
    (hjP : j.fromStr bodyJ = Except.ok rawJ)
    (hjS : j.tomlToString rawJ = Except.ok sJ)
    (hjB : j.fromValue rawJ = Except.ok d.toJManifest)
    (hcY : y.cargoCheck sY = t.cargoCheck bodyT)
    (hcJ : j.cargoCheck sJ = t.cargoCheck bodyT) :
    manifestHandler t y j (HeaderVal.value "application/yaml") bodyY
      = manifestHandler t y j (HeaderVal.value "application/toml") bodyT ∧
    manifestHandler t y j (HeaderVal.value "application/json") bodyJ
      = manifestHandler t y j (HeaderVal.value "application/toml") bodyT := by
  have hpm := logical_parse_manifest_eq d hrange
  have ht : manifestHandler t y j (HeaderVal.value "application/toml") bodyT
      = (parse_toml t bodyT).toRun := rfl
  have hy : manifestHandler t y j (HeaderVal.value "application/yaml") bodyY
      = (parse_yaml y bodyY).toRun := rfl
  have hj : manifestHandler t y j (HeaderVal.value "application/json") bodyJ
      = (parse_json j bodyJ).toRun := rfl
  rw [ht, hy, hj]
  unfold parse_toml parse_yaml parse_json
  simp only [htP, hyP, hyS, hyB, hjP, hjS, hjB, hcY, hcJ]
  cases hcc : t.cargoCheck bodyT with
  | false => simp
  | true => simp [hpm]

/-- Witness for C8: a document with one convertible and one junk order
entry gives the same response under all three content types. -/
theorem cross_format_equivalence_witness :
    manifestHandler witTomlLib witYamlLib witJsonLib
        (HeaderVal.value "application/yaml") "yaml-body"
      = manifestHandler witTomlLib witYamlLib witJsonLib
        (HeaderVal.value "application/toml") "toml-body" ∧
    manifestHandler witTomlLib witYamlLib witJsonLib
        (HeaderVal.value "application/json") "json-body"
      = manifestHandler witTomlLib witYamlLib witJsonLib
        (HeaderVal.value "application/toml") "toml-body" :=
  cross_format_equivalence witTomlLib witYamlLib witJsonLib
    "toml-body" "yaml-body" "json-body" witDoc
    (by
      intro os h e he
      cases h
      simp only [List.mem_cons, List.mem_singleton] at he
      rcases he with he | he | he
      · subst he; exact ⟨by decide, by decide⟩
      · subst he; exact trivial
      · cases he)
    JVal.null JVal.null "serialized" "serialized"
    rfl rfl rfl rfl rfl rfl rfl rfl rfl

/-- Claim C9 (confirmed): the core is a pure function of
`(content_type, body)` with no cross-request state: in any batch of
requests, the response at a given position is exactly the handler applied
to that request, independent of all requests before and after it — so two
invocations of the same input always produce the same outcome. -/
theorem handler_stateless (t : TomlLib) (y : YamlLib) (j : JsonLib)
    (pre post : List (HeaderVal × String)) (h : HeaderVal) (b : String) :
    (processRequests t y j (pre ++ (h, b) :: post))[pre.length]?
      = some (manifestHandler t y j h b) ∧
    processRequests t y j (pre ++ (h, b) :: post)
      = processRequests t y j pre
        ++ manifestHandler t y j h b :: processRequests t y j post := by
  have hseq : processRequests t y j (pre ++ (h, b) :: post)
      = processRequests t y j pre
        ++ manifestHandler t y j h b :: processRequests t y j post := by
    simp [processRequests]
  refine ⟨?_, hseq⟩
  rw [hseq]
  rw [List.getElem?_append_right (by simp [processRequests])]
  simp [processRequests]

/-- Claim C10 (confirmed): a YAML/JSON order entry that is not a mapping
indexes to `Null` under both `"item"` and `"quantity"`, so the conversion
returns an `Err` (no panic), and dropping such an entry from the orders
sequence leaves the whole pipeline result unchanged. -/
theorem nonmapping_entry_dropped (v : JVal) (hv : v.isObj = false) :
    v.index "item" = JVal.null ∧ v.index "quantity" = JVal.null ∧
    ValidToy.tryFromJVal v = Except.error "Invalid item" ∧
    (∀ (name : String) (ko : Option (List String)) (l1 l2 : List JVal),
      parse_manifest ValidToy.tryFromJVal ⟨⟨name, ko, some ⟨some (l1 ++ v :: l2)⟩⟩⟩
        = parse_manifest ValidToy.tryFromJVal ⟨⟨name, ko, some ⟨some (l1 ++ l2)⟩⟩⟩) := by
  have hidx : ∀ k : String, v.index k = JVal.null := by
    intro k
    cases v <;> first | rfl | (exact absurd hv (by simp [JVal.isObj]))
  have htoy : ValidToy.tryFromJVal v = Except.error "Invalid item" := by
    unfold ValidToy.tryFromJVal
    rw [hidx "item"]
    rfl
  refine ⟨hidx "item", hidx "quantity", htoy, ?_⟩
  intro name ko l1 l2
  have hfm : (l1 ++ v :: l2).filterMap (fun o => (ValidToy.tryFromJVal o).toOption)
      = (l1 ++ l2).filterMap (fun o => (ValidToy.tryFromJVal o).toOption) := by
    simp [List.filterMap_append, List.filterMap_cons, htoy, Except.toOption]
  unfold parse_manifest
  simp only [hfm]

/-- Witness for C10: the sequence entry `[1]` is gracefully rejected. -/
theorem nonmapping_entry_dropped_witness :
    (JVal.arr [JVal.int 1]).index "item" = JVal.null ∧
    (JVal.arr [JVal.int 1]).index "quantity" = JVal.null ∧
    ValidToy.tryFromJVal (JVal.arr [JVal.int 1]) = Except.error "Invalid item" ∧
    (∀ (name : String) (ko : Option (List String)) (l1 l2 : List JVal),
      parse_manifest ValidToy.tryFromJVal
          ⟨⟨name, ko, some ⟨some (l1 ++ JVal.arr [JVal.int 1] :: l2)⟩⟩⟩
        = parse_manifest ValidToy.tryFromJVal ⟨⟨name, ko, some ⟨some (l1 ++ l2)⟩⟩⟩) :=
  nonmapping_entry_dropped (JVal.arr [JVal.int 1]) rfl
